import Mathlib

/-!
# Formal model of the Vibez account-security core

A shallow embedding of the security-relevant code of the Vibez repository:

* the fixed-window rate limiter (`isRateLimited` in
  `src/app/api/verify-email/route.ts` and `isDeviceRegistrationRateLimited`
  in `src/app/api/device/route.ts`);
* the verification-code lifecycle, in both source variants: the
  transactional, salted-hash variant (`hashCode`, `sendVerificationCode`,
  `verifyCode` in the unnamed Firestore-backed route file) and the
  in-memory plaintext variant (`sendVerificationCode`,
  `sendPasswordResetEmail`, `verifyCode` in
  `src/app/api/verify-email/route.ts`);
* the relay signer (`createEmailHMAC`, `verifyHMAC` and the freshness
  check of `POST` in the unnamed send-email route file);
* the device-registration transaction body (`POST` in
  `src/app/api/device/route.ts`).

External primitives are modelled explicitly: JavaScript `Map` objects and
Firestore document collections become association lists; `Date.now()` and
server timestamps become an integer parameter `now` (milliseconds);
SHA-256 and HMAC-SHA256 become opaque function parameters (their output
shape — a 64-character lowercase hex digest — is stated as a hypothesis
where a proof needs it); `Buffer.from(s, "hex")` becomes `hexDecode`
(parsing hex-digit pairs and stopping at the first invalid character, as
Node does); `crypto.timingSafeEqual` becomes `timingSafeEqual`, which is
`none` (an exception) when the byte lengths differ; thrown exceptions are
`Option`/fallback values mirroring the source's try/catch blocks.
-/

set_option autoImplicit false

namespace Vibez

/-! ## Association-list stores

Model of the in-memory `Map` stores (`rateLimitStore`,
`verificationStore`, `deviceRateLimitStore`) and of the Firestore
collections used inside transactions.  `setA` replaces the binding for an
existing key in place and appends a fresh binding otherwise, matching
`Map.set` / `transaction.set`; `eraseA` removes the binding, matching
`Map.delete` / `transaction.delete`. -/

def findA {α : Type} : List (String × α) → String → Option α
  | [], _ => none
  | (k, w) :: rest, key => if k = key then some w else findA rest key

def setA {α : Type} : List (String × α) → String → α → List (String × α)
  | [], key, v => [(key, v)]
  | (k, w) :: rest, key, v =>
    if k = key then (key, v) :: rest else (k, w) :: setA rest key v

def eraseA {α : Type} : List (String × α) → String → List (String × α)
  | [], _ => []
  | (k, w) :: rest, key => if k = key then rest else (k, w) :: eraseA rest key

/-! ## Hex decoding and the constant-time comparison primitive

`hexDecode` models Node's `Buffer.from(s, "hex")`: it consumes pairs of
hex digits (lowercase, as produced by `digest("hex")`) and stops at the
first character pair that is not two hex digits, dropping any trailing
incomplete byte.  `timingSafeEqual` models `crypto.timingSafeEqual`,
which throws (here: `none`) when its two buffers differ in length and
otherwise reports byte-for-byte equality. -/

def isHexDigit (c : Char) : Bool :=
  (48 ≤ c.toNat && c.toNat ≤ 57) || (97 ≤ c.toNat && c.toNat ≤ 102)

def hexVal (c : Char) : Nat :=
  if c.toNat ≤ 57 then c.toNat - 48 else c.toNat - 87

def hexDecodeL : List Char → List Nat
  | c1 :: c2 :: rest =>
    if isHexDigit c1 && isHexDigit c2 then
      (16 * hexVal c1 + hexVal c2) :: hexDecodeL rest
    else []
  | _ => []

def hexDecode (s : String) : List Nat := hexDecodeL s.data

def timingSafeEqual (a b : List Nat) : Option Bool :=
  if a.length = b.length then some (decide (a = b)) else none

/-- Shape of a SHA-256 / HMAC-SHA256 hex digest: 64 lowercase hex digits. -/
def hexDigest (s : String) : Bool :=
  s.length == 64 && s.data.all isHexDigit

/-! ## RateLimiter

Embedding of the fixed-window limiter.  The same algorithm appears twice
in the source with different constants: `isRateLimited` in
`verify-email/route.ts` (and identically in the unnamed Firestore-backed
verification route), and `isDeviceRegistrationRateLimited` in
`device/route.ts`.  The mutable `Map` becomes an explicit store that each
call threads through; `Date.now()` becomes the parameter `now`. -/

structure RateRecord where
  count : Nat
  resetTime : Int
  deriving DecidableEq, Repr

abbrev RLStore : Type := List (String × RateRecord)

def isRateLimitedGen (windowMs : Int) (maxRequests : Nat) (now : Int)
    (identifier : String) (store : RLStore) : Bool × RLStore :=
  match findA store identifier with
  | none => (false, setA store identifier ⟨1, now + windowMs⟩)
  | some r =>
    if now > r.resetTime then
      (false, setA store identifier ⟨1, now + windowMs⟩)
    else if r.count ≥ maxRequests then
      (true, store)
    else
      (false, setA store identifier ⟨r.count + 1, r.resetTime⟩)

/-- `isRateLimited` of the verification routes: a 60 * 1000 ms window and
at most 3 requests per window. -/
def isRateLimited (now : Int) (identifier : String) (store : RLStore) : Bool × RLStore :=
  isRateLimitedGen (60 * 1000) 3 now identifier store

/-- `isDeviceRegistrationRateLimited` of `device/route.ts`: a
5 * 60 * 1000 ms window and at most 3 registrations per window. -/
def isDeviceRegistrationRateLimited (now : Int) (identifier : String) (store : RLStore) :
    Bool × RLStore :=
  isRateLimitedGen (5 * 60 * 1000) 3 now identifier store

/-! ## Verification-code store, transactional salted-hash variant

Embedding of the unnamed Firestore-backed verification route.  The
`verificationCodes` collection becomes a `VStore`; the SHA-256 primitive
of `hashCode` becomes the parameter `sha256`; the outcome of
`generateVerificationCode` (`Math.random`-based) becomes the parameter
`code`; the outcome of the external `sendEmailDirectly` call becomes the
parameter `dispatchOk`.  The `createdAt: FieldValue.serverTimestamp()`
field is a server-assigned opaque sentinel and is omitted from the
record. -/

structure VerificationRecord where
  hashedCode : String
  expiresAt : Int
  attempts : Nat
  clientIP : String
  deriving DecidableEq, Repr

abbrev VStore : Type := List (String × VerificationRecord)

/-- `hashCode` of the transactional route: the salted digest
`sha256(code ++ ":" ++ email ++ ":" ++ salt)`, where `salt` is the
`VERIFICATION_SALT` server secret. -/
def hashCode (sha256 : String → String) (salt code email : String) : String :=
  sha256 (code ++ ":" ++ email ++ ":" ++ salt)

/-- `sendVerificationCode` of the transactional route: dual-key rate
limiting (short-circuit across the two keys, as in the source's
disjunction), then the transactional write of the hashed record, then
email dispatch. -/
def sendVerificationCode (sha256 : String → String) (salt : String) (now : Int)
    (code email clientIP : String) (dispatchOk : Bool)
    (rl : RLStore) (vs : VStore) : Bool × RLStore × VStore :=
  let emailKey := "email:" ++ email
  let ipKey := "ip:" ++ clientIP
  let c1 := isRateLimited now emailKey rl
  if c1.1 then (false, c1.2, vs)
  else
    let c2 := isRateLimited now ipKey c1.2
    if c2.1 then (false, c2.2, vs)
    else
      (dispatchOk, c2.2,
        setA vs email ⟨hashCode sha256 salt code email, now + 10 * 60 * 1000, 0, clientIP⟩)

/-- Outcome labels naming the five branches of the source's `verifyCode`
(the source returns a boolean; `ConsumeResult.toBool` is the projection
the source applies). -/
inductive ConsumeResult where
  | Valid
  | Invalid
  | Expired
  | AttemptsExceeded
  | NotFound
  deriving DecidableEq, Repr

def ConsumeResult.toBool : ConsumeResult → Bool
  | .Valid => true
  | _ => false

/-- Transaction body of `verifyCode` in the transactional route,
parametrized by the constant-time comparison primitive `tse` (so that
facts independent of the primitive's behaviour can be stated by
quantifying over it).  `none` models an exception thrown inside the
transaction: the transaction aborts and no write happens. -/
def verifyCodeCore (tse : List Nat → List Nat → Option Bool) (sha256 : String → String)
    (salt : String) (now : Int) (vs : VStore) (email code : String) :
    Option (ConsumeResult × VStore) :=
  match findA vs email with
  | none => some (.NotFound, vs)
  | some r =>
    if r.expiresAt < now then some (.Expired, eraseA vs email)
    else if r.attempts ≥ 5 then some (.AttemptsExceeded, eraseA vs email)
    else
      let inputHashedCode := hashCode sha256 salt code email
      if inputHashedCode.length ≠ r.hashedCode.length then
        some (.Invalid, setA vs email { r with attempts := r.attempts + 1 })
      else
        match tse (hexDecode inputHashedCode) (hexDecode r.hashedCode) with
        | none => none
        | some true => some (.Valid, eraseA vs email)
        | some false => some (.Invalid, setA vs email { r with attempts := r.attempts + 1 })

/-- `verifyCode` of the transactional route with the real comparison
primitive plugged in. -/
def verifyCodeR (sha256 : String → String) (salt : String) (now : Int)
    (vs : VStore) (email code : String) : Option (ConsumeResult × VStore) :=
  verifyCodeCore timingSafeEqual sha256 salt now vs email code

/-- `verifyCode` as the caller sees it: the boolean result, with the
outer catch turning an aborted transaction into `false` with the store
unchanged. -/
def verifyCode (sha256 : String → String) (salt : String) (now : Int)
    (vs : VStore) (email code : String) : Bool × VStore :=
  match verifyCodeR sha256 salt now vs email code with
  | some (res, vs2) => (res.toBool, vs2)
  | none => (false, vs)

/-- Reference function written from the words of the spec's `consume`
contract (claim C2): the five cases in the stated order, with digest
equality as plain string equality of the two digests. -/
def consumeSpec (sha256 : String → String) (salt : String) (now : Int)
    (vs : VStore) (email code : String) : ConsumeResult × VStore :=
  match findA vs email with
  | none => (.NotFound, vs)
  | some r =>
    if r.expiresAt < now then (.Expired, eraseA vs email)
    else if r.attempts ≥ 5 then (.AttemptsExceeded, eraseA vs email)
    else if hashCode sha256 salt code email = r.hashedCode then (.Valid, eraseA vs email)
    else (.Invalid, setA vs email { r with attempts := r.attempts + 1 })

/-- The SHA-256 primitive always produces a 64-character lowercase hex
digest. -/
def digestShaped (sha256 : String → String) : Prop :=
  ∀ s, hexDigest (sha256 s) = true

/-- Every stored record's digest has hex-digest shape (established by
`sendVerificationCode`, which only ever writes `hashCode` outputs). -/
def storeWF (vs : VStore) : Prop :=
  ∀ k r, findA vs k = some r → hexDigest r.hashedCode = true

/-! ## Verification-code store, in-memory plaintext variant

Embedding of `sendVerificationCode`, `sendPasswordResetEmail` and
`verifyCode` in `src/app/api/verify-email/route.ts`.  This variant
persists the plaintext code in its `verificationStore` map and its
password-reset issue path performs no rate limiting at all. -/

structure PlainVerificationRecord where
  code : String
  expiresAt : Int
  attempts : Nat
  deriving DecidableEq, Repr

abbrev MemStore : Type := List (String × PlainVerificationRecord)

/-- `sendVerificationCode` of `verify-email/route.ts`: dual-key rate
limiting, then `verificationStore.set(email, ...)` storing the plaintext
code, then dispatch. -/
def sendVerificationCodeMem (now : Int) (code email clientIP : String) (dispatchOk : Bool)
    (rl : RLStore) (vs : MemStore) : Bool × RLStore × MemStore :=
  let emailKey := "email:" ++ email
  let ipKey := "ip:" ++ clientIP
  let c1 := isRateLimited now emailKey rl
  if c1.1 then (false, c1.2, vs)
  else
    let c2 := isRateLimited now ipKey c1.2
    if c2.1 then (false, c2.2, vs)
    else
      (dispatchOk, c2.2, setA vs email ⟨code, now + 10 * 60 * 1000, 0⟩)

/-- `sendPasswordResetEmail` of `verify-email/route.ts`: stores the
plaintext reset code under the key `reset:` ++ email with a 30-minute
expiry and dispatches; it consults no rate limiter (it does not even
read the limiter store). -/
def sendPasswordResetEmail (now : Int) (resetCode email : String) (dispatchOk : Bool)
    (vs : MemStore) : Bool × MemStore :=
  (dispatchOk, setA vs ("reset:" ++ email) ⟨resetCode, now + 30 * 60 * 1000, 0⟩)

/-- `verifyCode` of `verify-email/route.ts`: same case analysis as the
transactional variant, with plaintext string comparison of the codes. -/
def verifyCodeMem (now : Int) (vs : MemStore) (email code : String) : Bool × MemStore :=
  match findA vs email with
  | none => (false, vs)
  | some r =>
    if now > r.expiresAt then (false, eraseA vs email)
    else if r.attempts ≥ 5 then (false, eraseA vs email)
    else if code = r.code then (true, eraseA vs email)
    else (false, setA vs email { r with attempts := r.attempts + 1 })

/-! ## RelaySigner

Embedding of `createEmailHMAC`, `verifyHMAC` and the freshness check of
the send-email `POST` handler.  The message is its canonical
serialization: `payload` stands for the deterministic serialization of
the email fields, and `serializeMessage` appends the timestamp, modelling
`JSON.stringify` over the full message object with stable field order.
`hmac` is the HMAC-SHA256-with-server-secret primitive
(`crypto.createHmac("sha256", secret) ... digest("hex")`). -/

structure RelayMessage where
  payload : String
  timestamp : Int
  deriving DecidableEq, Repr

def serializeMessage (m : RelayMessage) : String :=
  m.payload ++ "|" ++ toString m.timestamp

/-- `createEmailHMAC`: the hex HMAC digest over the serialized message
(timestamp included). -/
def createEmailHMAC (hmac : String → String) (m : RelayMessage) : String :=
  hmac (serializeMessage m)

/-- Body of `verifyHMAC` before its try/catch, parametrized by the
comparison primitive `tse`; `none` is an uncaught exception. -/
def verifyHMACCore (tse : List Nat → List Nat → Option Bool) (hmac : String → String)
    (m : RelayMessage) (receivedHmac : String) : Option Bool :=
  let expectedHmac := hmac (serializeMessage m)
  if expectedHmac.length ≠ receivedHmac.length then some false
  else tse (hexDecode expectedHmac) (hexDecode receivedHmac)

/-- `verifyHMAC` as the source exposes it: the catch block maps any
exception to `false`. -/
def verifyHMAC (hmac : String → String) (m : RelayMessage) (receivedHmac : String) : Bool :=
  match verifyHMACCore timingSafeEqual hmac m receivedHmac with
  | some b => b
  | none => false

/-- The signature-checking portion of the send-email `POST` handler: the
replay/freshness check `abs(now - timestamp) > 5 * 60 * 1000` followed by
`verifyHMAC`. -/
def relayVerify (hmac : String → String) (now : Int) (m : RelayMessage)
    (receivedHmac : String) : Bool :=
  if (now - m.timestamp).natAbs > 5 * 60 * 1000 then false
  else verifyHMAC hmac m receivedHmac

/-! ## DeviceRegistry

Embedding of the transaction body of `POST` in `device/route.ts`,
restricted to the user document: the companion write to the per-device
subcollection never touches the `devices` array and is omitted.
`cookieDeviceId` is the value of the `deviceId` cookie when the request
carries one; `freshId` is the `generateSecureDeviceId()` output used when
it does not.  Both `FieldValue.serverTimestamp()` and `new Date()`
become `now`.  The profile fields of the create-path document (email,
name, friends lists, ...) are constants that never interact with the
device list and are omitted. -/

structure DeviceInfo where
  userAgent : String
  clientIP : String
  deviceType : String
  deriving DecidableEq, Repr

structure DeviceData where
  id : String
  type : String
  userAgent : String
  clientIP : String
  loggedInAt : Int
  lastActiveAt : Int
  deriving DecidableEq, Repr

structure UserDoc where
  devices : List DeviceData
  status : String
  lastActiveAt : Int
  deriving DecidableEq, Repr

def maxDevices : Nat := 10

def mkDeviceData (now : Int) (deviceId : String) (info : DeviceInfo) : DeviceData :=
  ⟨deviceId, info.deviceType, info.userAgent, info.clientIP, now, now⟩

def registerDeviceTxn (now : Int) (cookieDeviceId : Option String) (freshId : String)
    (info : DeviceInfo) (userDoc : Option UserDoc) : UserDoc :=
  let deviceId := cookieDeviceId.getD freshId
  let isNewDevice := cookieDeviceId.isNone
  let deviceData := mkDeviceData now deviceId info
  match userDoc with
  | some u =>
    if isNewDevice then
      let otherDevices := u.devices.filter fun d =>
        ! (d.clientIP == info.clientIP && d.userAgent == info.userAgent)
      let devicesToKeep := otherDevices.drop (otherDevices.length - (maxDevices - 1))
      ⟨devicesToKeep ++ [deviceData], "online", now⟩
    else
      ⟨u.devices.map fun d => if d.id = deviceId then { d with lastActiveAt := now } else d,
        "online", now⟩
  | none => ⟨[deviceData], "online", now⟩

/-- Fold a sequence of limiter calls (left to right) for one identifier,
collecting each call's limited verdict and threading the store. -/
def rlCalls (W : Int) (N : Nat) (ident : String) : List Int → RLStore → List Bool × RLStore
  | [], store => ([], store)
  | t :: ts, store =>
    let c := isRateLimitedGen W N t ident store
    let rest := rlCalls W N ident ts c.2
    (c.1 :: rest.1, rest.2)

/-- Concrete HMAC stand-in for the C7 witness: two distinct hex digests
for the two messages exercised. -/
def hmacWitness : String → String := fun s =>
  if s = "a|5" then
    "0000000000000000000000000000000000000000000000000000000000000000"
  else
    "1111111111111111111111111111111111111111111111111111111111111111"

/-! ## Helper lemmas -/

theorem findA_setA_same {α : Type} (s : List (String × α)) (k : String) (v : α) :
    findA (setA s k v) k = some v := by
  induction s with
  | nil => simp [setA, findA]
  | cons hd tl ih =>
    obtain ⟨k0, w⟩ := hd
    by_cases h : k0 = k <;> simp [setA, findA, h, ih]

theorem findA_setA_other {α : Type} (s : List (String × α)) (k k2 : String) (v : α)
    (h : k2 ≠ k) : findA (setA s k v) k2 = findA s k2 := by
  induction s with
  | nil => simp [setA, findA, Ne.symm h]
  | cons hd tl ih =>
    obtain ⟨k0, w⟩ := hd
    by_cases hk : k0 = k
    · subst hk
      simp [setA, findA, Ne.symm h]
    · simp only [setA, if_neg hk, findA]
      by_cases hk2 : k0 = k2 <;> simp [hk2, ih]

theorem hexVal_lt_16 (c : Char) (h : isHexDigit c = true) : hexVal c < 16 := by
  simp only [isHexDigit, Bool.or_eq_true, Bool.and_eq_true, decide_eq_true_eq] at h
  unfold hexVal
  split <;> omega

theorem hexVal_inj (c d : Char) (hc : isHexDigit c = true) (hd : isHexDigit d = true)
    (h : hexVal c = hexVal d) : c = d := by
  simp only [isHexDigit, Bool.or_eq_true, Bool.and_eq_true, decide_eq_true_eq] at hc hd
  have htn : c.toNat = d.toNat := by
    unfold hexVal at h
    split at h <;> split at h <;> omega
  have h2 : Char.ofNat c.toNat = Char.ofNat d.toNat := congrArg Char.ofNat htn
  rwa [Char.ofNat_toNat, Char.ofNat_toNat] at h2

theorem hexDecodeL_length : ∀ (l : List Char), (∀ c ∈ l, isHexDigit c = true) →
    (hexDecodeL l).length = l.length / 2
  | [], _ => by simp [hexDecodeL]
  | [c], _ => by simp [hexDecodeL]
  | c1 :: c2 :: rest, h => by
    have hc1 : isHexDigit c1 = true := h c1 (by simp)
    have hc2 : isHexDigit c2 = true := h c2 (by simp)
    have ih := hexDecodeL_length rest (fun c hcmem => h c (by simp [hcmem]))
    simp only [hexDecodeL, hc1, hc2, Bool.and_self, if_true, List.length_cons, ih]
    omega

theorem hexDecodeL_inj : ∀ (s t : List Char), (∀ c ∈ s, isHexDigit c = true) →
    (∀ c ∈ t, isHexDigit c = true) → s.length = t.length → s.length % 2 = 0 →
    hexDecodeL s = hexDecodeL t → s = t
  | [], t, _, _, hlen, _, _ => by
    cases t with
    | nil => rfl
    | cons d t2 => simp at hlen
  | [c], _, _, _, _, heven, _ => by simp at heven
  | c1 :: c2 :: s2, t, hs, ht, hlen, heven, h => by
    match t with
    | [] => simp at hlen
    | [d] => simp at hlen
    | d1 :: d2 :: t2 =>
      have hc1 : isHexDigit c1 = true := hs c1 (by simp)
      have hc2 : isHexDigit c2 = true := hs c2 (by simp)
      have hd1 : isHexDigit d1 = true := ht d1 (by simp)
      have hd2 : isHexDigit d2 = true := ht d2 (by simp)
      simp only [hexDecodeL, hc1, hc2, hd1, hd2, Bool.and_self, if_true,
        List.cons.injEq] at h
      obtain ⟨hbyte, hrec⟩ := h
      have hv2c := hexVal_lt_16 c2 hc2
      have hv2d := hexVal_lt_16 d2 hd2
      have hv1 : hexVal c1 = hexVal d1 := by omega
      have hv2 : hexVal c2 = hexVal d2 := by omega
      have he1 : c1 = d1 := hexVal_inj c1 d1 hc1 hd1 hv1
      have he2 : c2 = d2 := hexVal_inj c2 d2 hc2 hd2 hv2
      have hrest : s2 = t2 := by
        refine hexDecodeL_inj s2 t2 (fun c hc => hs c (by simp [hc]))
          (fun c hc => ht c (by simp [hc])) ?_ ?_ hrec
        · simpa using hlen
        · simp only [List.length_cons] at heven
          omega
      simp [he1, he2, hrest]

theorem timingSafeEqual_hexDigest (s t : String)
    (hs : hexDigest s = true) (ht : hexDigest t = true) :
    timingSafeEqual (hexDecode s) (hexDecode t) = some (decide (s = t)) := by
  simp only [hexDigest, Bool.and_eq_true, beq_iff_eq, List.all_eq_true] at hs ht
  obtain ⟨hslen, hshex⟩ := hs
  obtain ⟨htlen, hthex⟩ := ht
  have hslen2 : s.data.length = 64 := hslen
  have htlen2 : t.data.length = 64 := htlen
  have hls : (hexDecodeL s.data).length = 32 := by
    rw [hexDecodeL_length s.data hshex, hslen2]
  have hlt : (hexDecodeL t.data).length = 32 := by
    rw [hexDecodeL_length t.data hthex, htlen2]
  unfold timingSafeEqual hexDecode
  rw [hls, hlt, if_pos rfl]
  by_cases hst : s = t
  · subst hst
    simp
  · have hdata : s.data ≠ t.data := by
      intro hd
      exact hst (by cases s; cases t; simp_all)
    have hdec : hexDecodeL s.data ≠ hexDecodeL t.data := by
      intro hcontra
      exact hdata (hexDecodeL_inj s.data t.data hshex hthex
        (by rw [hslen2, htlen2]) (by rw [hslen2]) hcontra)
    simp [hdec, hst]

/-- The deny branch of the limiter leaves the store untouched: it neither
increments the counter nor moves the window. -/
theorem isRateLimitedGen_denied (W : Int) (N : Nat) (now : Int) (ident : String)
    (store : RLStore) (h : (isRateLimitedGen W N now ident store).1 = true) :
    isRateLimitedGen W N now ident store = (true, store) := by
  unfold isRateLimitedGen at h ⊢
  revert h
  cases findA store ident with
  | none => intro h; simp at h
  | some r =>
    intro h
    by_cases h1 : now > r.resetTime
    · simp [h1] at h
    · by_cases h2 : r.count ≥ N
      · simp [h1, h2]
      · simp [h1, h2] at h

/-! ## Claims -/

/-- C1 (amended): in the transactional salted-hash variant, whenever the
issue path reaches its write, the persisted `VerificationRecord` carries
only the salted one-way hash of the code — `sha256` over
code ++ ":" ++ email ++ ":" ++ salt — together with expiry, a zero
attempt counter and the client IP; the record type has no plaintext
field.  (The in-memory variant of `verify-email/route.ts` refutes the
claim as stated: see the counterexample.) -/
theorem claim_C1_only_salted_hash_stored (sha256 : String → String) (salt : String)
    (now : Int) (code email clientIP : String) (dispatchOk : Bool)
    (rl rl1 rl2 : RLStore) (vs : VStore)
    (h1 : isRateLimited now ("email:" ++ email) rl = (false, rl1))
    (h2 : isRateLimited now ("ip:" ++ clientIP) rl1 = (false, rl2)) :
    sendVerificationCode sha256 salt now code email clientIP dispatchOk rl vs =
      (dispatchOk, rl2,
        setA vs email ⟨hashCode sha256 salt code email, now + 10 * 60 * 1000, 0, clientIP⟩) ∧
    findA (sendVerificationCode sha256 salt now code email clientIP dispatchOk rl vs).2.2
        email =
      some ⟨hashCode sha256 salt code email, now + 10 * 60 * 1000, 0, clientIP⟩ := by
  have hmain : sendVerificationCode sha256 salt now code email clientIP dispatchOk rl vs =
      (dispatchOk, rl2,
        setA vs email ⟨hashCode sha256 salt code email, now + 10 * 60 * 1000, 0, clientIP⟩) := by
    unfold sendVerificationCode
    simp [h1, h2]
  exact ⟨hmain, by rw [hmain]; exact findA_setA_same vs email _⟩

/-- C1 witness: a concrete issue through the transactional variant stores
exactly the salted hash record. -/
theorem claim_C1_only_salted_hash_stored_witness :
    sendVerificationCode (fun s => s) "sa" 0 "123456" "a@x" "9.9.9.9" true [] [] =
      (true, [("email:a@x", ⟨1, 60000⟩), ("ip:9.9.9.9", ⟨1, 60000⟩)],
        [("a@x", ⟨"123456:a@x:sa", 600000, 0, "9.9.9.9"⟩)]) := by
  have h := claim_C1_only_salted_hash_stored (fun s => s) "sa" 0 "123456" "a@x" "9.9.9.9"
    true [] [("email:a@x", ⟨1, 60000⟩)]
    [("email:a@x", ⟨1, 60000⟩), ("ip:9.9.9.9", ⟨1, 60000⟩)] [] (by decide) (by decide)
  rw [h.1]
  rfl

/-- C1 counterexample: the in-memory variant persists the plaintext
code itself — after a successful issue of code "123456" the stored
record's `code` field is the literal string "123456", refuting
"the plaintext code is never written to the store" as a statement about
every issue path of the repository. -/
theorem claim_C1_counterexample :
    Option.map PlainVerificationRecord.code
      (findA (sendVerificationCodeMem 0 "123456" "a@x.com" "1.2.3.4" true [] []).2.2
        "a@x.com") = some "123456" := by
  decide

/-- C2: the transactional `verifyCode` performs exactly the claimed case
analysis in the claimed order — absent record: NotFound, store untouched;
past expiry: record deleted, Expired; attempt counter at or above 5:
record deleted, AttemptsExceeded (the candidate is never compared, so
this holds even for a correct candidate); digest match: record deleted,
Valid; otherwise: attempt counter incremented in place, Invalid.  Stated
as equality with `consumeSpec`, the function written from the claim's
words, under the digest-shape hypotheses for the SHA-256 primitive and
the stored digests (which also rule out an aborting transaction). -/
theorem claim_C2_consume_case_analysis (sha256 : String → String) (salt : String)
    (now : Int) (vs : VStore) (email code : String)
    (hsha : digestShaped sha256) (hwf : storeWF vs) :
    verifyCodeR sha256 salt now vs email code =
      some (consumeSpec sha256 salt now vs email code) := by
  unfold verifyCodeR verifyCodeCore consumeSpec
  cases hf : findA vs email with
  | none => simp
  | some r =>
    by_cases h1 : r.expiresAt < now
    · simp [h1]
    · by_cases h2 : r.attempts ≥ 5
      · simp [h1, h2]
      · have hin : hexDigest (hashCode sha256 salt code email) = true := hsha _
        have hst : hexDigest r.hashedCode = true := hwf email r hf
        have hlen : (hashCode sha256 salt code email).length = r.hashedCode.length := by
          simp only [hexDigest, Bool.and_eq_true, beq_iff_eq] at hin hst
          rw [hin.1, hst.1]
        by_cases heq : hashCode sha256 salt code email = r.hashedCode
        · simp [h1, h2, hlen, heq, timingSafeEqual]
        · simp [h1, h2, hlen, heq, timingSafeEqual_hexDigest _ _ hin hst]

/-- C2 witness: with a concrete digest-shaped primitive and a store
holding one matching record, consuming the right code yields Valid and
deletes the record. -/
theorem claim_C2_consume_case_analysis_witness :
    verifyCodeR
        (fun _ => "0000000000000000000000000000000000000000000000000000000000000000")
        "sa" 5
        [("a@x",
          ⟨"0000000000000000000000000000000000000000000000000000000000000000",
            1000, 0, "ip"⟩)]
        "a@x" "123456" =
      some (.Valid, []) := by
  have h := claim_C2_consume_case_analysis
    (fun _ => "0000000000000000000000000000000000000000000000000000000000000000")
    "sa" 5
    [("a@x",
      ⟨"0000000000000000000000000000000000000000000000000000000000000000",
        1000, 0, "ip"⟩)]
    "a@x" "123456"
    (by
      intro s
      show hexDigest "0000000000000000000000000000000000000000000000000000000000000000" = true
      decide)
    (by
      intro k r hk
      unfold findA at hk
      by_cases hke : "a@x" = k
      · simp only [hke, if_pos rfl] at hk
        cases hk
        decide
      · rw [if_neg hke] at hk
        simp [findA] at hk)
  rw [h]
  rfl

/-- C3 counterexample: the reset-purpose issue path
(`sendPasswordResetEmail`) has no access to the rate limiter at all.  At
a concrete limiter state in which the email-keyed identifier is limited
(first conjunct), issuing a reset code nevertheless succeeds: it writes
the record and reports the dispatch outcome (second conjunct), refuting
"for every purpose ... if either key is limited it rejects without ...
writing a record, or dispatching an email". -/
theorem claim_C3_counterexample :
    (isRateLimited 0 "email:a@x.com" [("email:a@x.com", ⟨3, 60000⟩)]).1 = true ∧
    sendPasswordResetEmail 0 "222222" "a@x.com" true [] =
      (true, [("reset:a@x.com", ⟨"222222", 1800000, 0⟩)]) := by
  decide

/-- C3 (amended): the verify-purpose issue path consults the limiter
under the email-keyed identifier and then — only if that allows — under
the IP-keyed identifier; if either consulted key is limited it rejects
without generating a code, writing a record, or dispatching an email.
The reset-purpose issue path performs no rate-limit check at all: it
always writes the reset record and attempts dispatch. -/
theorem claim_C3_dual_key_rate_limit (now : Int) (code email clientIP : String)
    (dispatchOk : Bool) (rl : RLStore) (vs : MemStore) :
    ((isRateLimited now ("email:" ++ email) rl).1 = true →
      sendVerificationCodeMem now code email clientIP dispatchOk rl vs = (false, rl, vs)) ∧
    (∀ rl1, isRateLimited now ("email:" ++ email) rl = (false, rl1) →
      (isRateLimited now ("ip:" ++ clientIP) rl1).1 = true →
      sendVerificationCodeMem now code email clientIP dispatchOk rl vs = (false, rl1, vs)) ∧
    sendPasswordResetEmail now code email dispatchOk vs =
      (dispatchOk, setA vs ("reset:" ++ email) ⟨code, now + 30 * 60 * 1000, 0⟩) := by
  refine ⟨?_, ?_, rfl⟩
  · intro h
    have hd : isRateLimited now ("email:" ++ email) rl = (true, rl) :=
      isRateLimitedGen_denied (60 * 1000) 3 now ("email:" ++ email) rl h
    unfold sendVerificationCodeMem
    simp [hd]
  · intro rl1 h1 h2
    have hd : isRateLimited now ("ip:" ++ clientIP) rl1 = (true, rl1) :=
      isRateLimitedGen_denied (60 * 1000) 3 now ("ip:" ++ clientIP) rl1 h2
    unfold sendVerificationCodeMem
    simp [h1, hd]

/-- C3 witness: with the email key concretely at its limit, the
verify-purpose issue call is rejected and changes nothing. -/
theorem claim_C3_dual_key_rate_limit_witness :
    sendVerificationCodeMem 0 "123456" "a@x" "7.7.7.7" true
        [("email:a@x", ⟨3, 60000⟩)] [] =
      (false, [("email:a@x", ⟨3, 60000⟩)], []) := by
  exact (claim_C3_dual_key_rate_limit 0 "123456" "a@x" "7.7.7.7" true
    [("email:a@x", ⟨3, 60000⟩)] []).1 (by decide)

/-- C5 counterexample: at the exact window boundary — current time equal
to the stored reset time, which is window-start + W — with the counter at
the maximum, the claim prescribes starting a new window with count 1 and
allowing the call; the code resets only strictly past the reset time, so
it denies the call and leaves the window unchanged. -/
theorem claim_C5_counterexample :
    isRateLimitedGen 60000 3 100 "k" [("k", ⟨3, 100⟩)] = (true, [("k", ⟨3, 100⟩)]) := by
  decide

/-- C5 (amended): the limiter's case analysis, with the window reset
happening only strictly past the stored reset time: no window, or
current time strictly past the reset time — new window with count 1,
allowed; otherwise count at or above the maximum — denied without
incrementing; otherwise — incremented in place and allowed.  The last
conjunct instantiates the claim's sequential consequence at the
repository's maximum of 3: the 4th call within one window for the same
identifier is denied. -/
theorem claim_C5_rate_limiter_algorithm (W : Int) (N : Nat) (now : Int) (ident : String)
    (store : RLStore) :
    (findA store ident = none →
      isRateLimitedGen W N now ident store = (false, setA store ident ⟨1, now + W⟩)) ∧
    (∀ r, findA store ident = some r → now > r.resetTime →
      isRateLimitedGen W N now ident store = (false, setA store ident ⟨1, now + W⟩)) ∧
    (∀ r, findA store ident = some r → ¬ now > r.resetTime → r.count ≥ N →
      isRateLimitedGen W N now ident store = (true, store)) ∧
    (∀ r, findA store ident = some r → ¬ now > r.resetTime → r.count < N →
      isRateLimitedGen W N now ident store =
        (false, setA store ident ⟨r.count + 1, r.resetTime⟩)) ∧
    (0 < W → findA store ident = none →
      (rlCalls W 3 ident [now, now, now, now] store).1 = [false, false, false, true]) := by
  refine ⟨?_, ?_, ?_, ?_, ?_⟩
  · intro hnone
    unfold isRateLimitedGen
    rw [hnone]
  · intro r hr h1
    unfold isRateLimitedGen
    rw [hr]
    simp [h1]
  · intro r hr h1 h2
    unfold isRateLimitedGen
    rw [hr]
    simp [h1, h2]
  · intro r hr h1 h2
    unfold isRateLimitedGen
    rw [hr]
    simp [h1, h2, Nat.not_le_of_lt h2]
  · intro hW hnone
    have h1 : ¬ now > now + W := by omega
    simp [rlCalls, isRateLimitedGen, hnone, findA_setA_same, h1]

/-- C5 witness: a fresh identifier at time 0 with window 60000: three
calls allowed, the fourth denied. -/
theorem claim_C5_rate_limiter_algorithm_witness :
    (rlCalls 60000 3 "k" [0, 0, 0, 0] []).1 = [false, false, false, true] := by
  exact (claim_C5_rate_limiter_algorithm 60000 3 0 "k" []).2.2.2.2 (by decide) (by decide)

/-- C10: when the email-keyed rate-limit check denies a verify-purpose
issue call, the dual-key check short-circuits and nothing changes: the
call fails, the limiter store is returned exactly as it was (so the
denied email window's count and reset time are unchanged and the
IP-keyed window is neither created nor incremented), the verification
store is unchanged, and the outcome is independent of the dispatch
collaborator — no email dispatch is attempted. -/
theorem claim_C10_email_denied_short_circuit (sha256 : String → String) (salt : String)
    (now : Int) (code email clientIP : String) (dispatchOk : Bool)
    (rl : RLStore) (vs : VStore)
    (h : (isRateLimited now ("email:" ++ email) rl).1 = true) :
    sendVerificationCode sha256 salt now code email clientIP dispatchOk rl vs =
      (false, rl, vs) ∧
    findA (sendVerificationCode sha256 salt now code email clientIP dispatchOk rl vs).2.1
        ("ip:" ++ clientIP) = findA rl ("ip:" ++ clientIP) ∧
    findA (sendVerificationCode sha256 salt now code email clientIP dispatchOk rl vs).2.1
        ("email:" ++ email) = findA rl ("email:" ++ email) ∧
    (∀ d2 : Bool, sendVerificationCode sha256 salt now code email clientIP d2 rl vs =
      sendVerificationCode sha256 salt now code email clientIP dispatchOk rl vs) := by
  have hd : isRateLimited now ("email:" ++ email) rl = (true, rl) :=
    isRateLimitedGen_denied (60 * 1000) 3 now ("email:" ++ email) rl h
  have hmain : ∀ d2 : Bool,
      sendVerificationCode sha256 salt now code email clientIP d2 rl vs = (false, rl, vs) := by
    intro d2
    unfold sendVerificationCode
    simp [hd]
  refine ⟨hmain dispatchOk, ?_, ?_, fun d2 => by rw [hmain d2, hmain dispatchOk]⟩
  · rw [hmain dispatchOk]
  · rw [hmain dispatchOk]

/-- C10 witness: a concrete denied email key leaves both limiter entries
and the verification store untouched. -/
theorem claim_C10_email_denied_short_circuit_witness :
    sendVerificationCode (fun s => s) "sa" 0 "123456" "a@x" "7.7.7.7" true
        [("email:a@x", ⟨3, 60000⟩)] [] =
      (false, [("email:a@x", ⟨3, 60000⟩)], []) := by
  exact (claim_C10_email_denied_short_circuit (fun s => s) "sa" 0 "123456" "a@x" "7.7.7.7"
    true [("email:a@x", ⟨3, 60000⟩)] [] (by decide)).1

/-- C4 counterexample: a request carrying device-id cookie "bbb" while
the stored list has no entry "bbb" (it was evicted) leaves the device
list exactly as it was: no entry for "bbb" is appended, refuting "the
call falls back to the new-device path and appends a new entry". -/
theorem claim_C4_counterexample :
    (registerDeviceTxn 100 (some "bbb") "fresh" ⟨"ua", "1.1.1.1", "web"⟩
        (some ⟨[⟨"aaa", "web", "ua2", "2.2.2.2", 0, 0⟩], "online", 0⟩)).devices =
      [⟨"aaa", "web", "ua2", "2.2.2.2", 0, 0⟩] ∧
    ((registerDeviceTxn 100 (some "bbb") "fresh" ⟨"ua", "1.1.1.1", "web"⟩
        (some ⟨[⟨"aaa", "web", "ua2", "2.2.2.2", 0, 0⟩], "online", 0⟩)).devices.all
      fun d => d.id != "bbb") = true := by
  decide

/-- C4 (amended): on the existing-device path the stored list is mapped
in place — the entry matching the cookie's device id gets a refreshed
last-active timestamp and every other entry is unchanged, so the length
is preserved; when no entry matches the cookie's device id the map is
the identity and the device list is returned unchanged: there is no
fallback to the new-device path and no entry is appended. -/
theorem claim_C4_existing_device_path (now : Int) (did freshId : String)
    (info : DeviceInfo) (u : UserDoc) :
    (registerDeviceTxn now (some did) freshId info (some u)).devices =
      u.devices.map (fun d => if d.id = did then { d with lastActiveAt := now } else d) ∧
    ((∀ d ∈ u.devices, d.id ≠ did) →
      (registerDeviceTxn now (some did) freshId info (some u)).devices = u.devices) ∧
    (registerDeviceTxn now (some did) freshId info (some u)).devices.length =
      u.devices.length := by
  have hmap : (registerDeviceTxn now (some did) freshId info (some u)).devices =
      u.devices.map (fun d => if d.id = did then { d with lastActiveAt := now } else d) := by
    simp [registerDeviceTxn]
  refine ⟨hmap, ?_, by rw [hmap]; simp⟩
  intro hno
  rw [hmap]
  have hid : ∀ d ∈ u.devices,
      (if d.id = did then { d with lastActiveAt := now } else d) = d := by
    intro d hd
    rw [if_neg (hno d hd)]
  rw [List.map_congr_left hid]
  simp

/-- C4 witness: a concrete no-match existing-device call returns the
stored list unchanged. -/
theorem claim_C4_existing_device_path_witness :
    (registerDeviceTxn 100 (some "ccc") "fresh" ⟨"ua", "3.3.3.3", "web"⟩
        (some ⟨[⟨"aaa", "web", "ua9", "9.9.9.9", 7, 7⟩], "online", 0⟩)).devices =
      [⟨"aaa", "web", "ua9", "9.9.9.9", 7, 7⟩] := by
  exact (claim_C4_existing_device_path 100 "ccc" "fresh" ⟨"ua", "3.3.3.3", "web"⟩
    ⟨[⟨"aaa", "web", "ua9", "9.9.9.9", 7, 7⟩], "online", 0⟩).2.1 (by decide)

/-- C6: after any register call on a user document whose list respects
the cap, the resulting device list has length at most `maxDevices`
(10), and on the new-device path the post-state list is a suffix of the
deduplicated pre-state list followed by the new entry: the evicted
entries form the oldest segment at the front of the list, evicted only
when the cap would otherwise be exceeded — never the newer entries. -/
theorem claim_C6_device_cap (now : Int) (cookieDeviceId : Option String) (freshId : String)
    (info : DeviceInfo) (udoc : Option UserDoc)
    (hcap : ∀ u, udoc = some u → u.devices.length ≤ maxDevices) :
    (registerDeviceTxn now cookieDeviceId freshId info udoc).devices.length ≤ maxDevices ∧
    (∀ u, udoc = some u → cookieDeviceId = none →
      ∃ evicted kept,
        u.devices.filter (fun d =>
            ! (d.clientIP == info.clientIP && d.userAgent == info.userAgent)) =
          evicted ++ kept ∧
        (registerDeviceTxn now cookieDeviceId freshId info udoc).devices =
          kept ++ [mkDeviceData now freshId info] ∧
        (evicted ≠ [] →
          (u.devices.filter (fun d =>
              ! (d.clientIP == info.clientIP && d.userAgent == info.userAgent))).length >
            maxDevices - 1)) := by
  cases udoc with
  | none =>
    refine ⟨?_, ?_⟩
    · cases cookieDeviceId <;> simp [registerDeviceTxn, maxDevices]
    · intro u hu
      exact absurd hu (by simp)
  | some u =>
    cases cookieDeviceId with
    | some did =>
      refine ⟨?_, ?_⟩
      · have hlen := hcap u rfl
        simp only [registerDeviceTxn, Option.getD, Option.isNone, Bool.false_eq_true,
          if_false, List.length_map]
        simpa using hlen
      · intro u2 hu2 hcookie
        exact absurd hcookie (by simp)
    | none =>
      have hshape : (registerDeviceTxn now none freshId info (some u)).devices =
          (u.devices.filter (fun d =>
              ! (d.clientIP == info.clientIP && d.userAgent == info.userAgent))).drop
            ((u.devices.filter (fun d =>
              ! (d.clientIP == info.clientIP && d.userAgent == info.userAgent))).length -
              (maxDevices - 1)) ++ [mkDeviceData now freshId info] := by
        simp [registerDeviceTxn]
      refine ⟨?_, ?_⟩
      · rw [hshape]
        simp only [List.length_append, List.length_drop, List.length_cons,
          List.length_nil, maxDevices]
        omega
      · intro u2 hu2 hcookie
        have hu : u2 = u := by
          injection hu2 with h
          exact h.symm
        subst hu
        refine ⟨(u2.devices.filter (fun d =>
            ! (d.clientIP == info.clientIP && d.userAgent == info.userAgent))).take
              ((u2.devices.filter (fun d =>
                ! (d.clientIP == info.clientIP && d.userAgent == info.userAgent))).length -
                (maxDevices - 1)),
          (u2.devices.filter (fun d =>
            ! (d.clientIP == info.clientIP && d.userAgent == info.userAgent))).drop
              ((u2.devices.filter (fun d =>
                ! (d.clientIP == info.clientIP && d.userAgent == info.userAgent))).length -
                (maxDevices - 1)), ?_, hshape, ?_⟩
        · exact (List.take_append_drop _ _).symm
        · intro hne
          have hpos : (u2.devices.filter (fun d =>
              ! (d.clientIP == info.clientIP && d.userAgent == info.userAgent))).length -
                (maxDevices - 1) ≠ 0 := by
            intro h0
            exact hne (by rw [h0, List.take_zero])
          simp only [maxDevices] at hpos ⊢
          omega

/-- C6 witness: registering an 11th-would-be device into a full list of
10 keeps the length at 10. -/
theorem claim_C6_device_cap_witness :
    (registerDeviceTxn 50 none "nnn" ⟨"ua", "5.5.5.5", "web"⟩
        (some ⟨[⟨"d0", "web", "u0", "i0", 0, 0⟩, ⟨"d1", "web", "u1", "i1", 1, 1⟩,
          ⟨"d2", "web", "u2", "i2", 2, 2⟩, ⟨"d3", "web", "u3", "i3", 3, 3⟩,
          ⟨"d4", "web", "u4", "i4", 4, 4⟩, ⟨"d5", "web", "u5", "i5", 5, 5⟩,
          ⟨"d6", "web", "u6", "i6", 6, 6⟩, ⟨"d7", "web", "u7", "i7", 7, 7⟩,
          ⟨"d8", "web", "u8", "i8", 8, 8⟩, ⟨"d9", "web", "u9", "i9", 9, 9⟩],
          "online", 0⟩)).devices.length ≤ maxDevices := by
  exact (claim_C6_device_cap 50 none "nnn" ⟨"ua", "5.5.5.5", "web"⟩
    (some ⟨[⟨"d0", "web", "u0", "i0", 0, 0⟩, ⟨"d1", "web", "u1", "i1", 1, 1⟩,
      ⟨"d2", "web", "u2", "i2", 2, 2⟩, ⟨"d3", "web", "u3", "i3", 3, 3⟩,
      ⟨"d4", "web", "u4", "i4", 4, 4⟩, ⟨"d5", "web", "u5", "i5", 5, 5⟩,
      ⟨"d6", "web", "u6", "i6", 6, 6⟩, ⟨"d7", "web", "u7", "i7", 7, 7⟩,
      ⟨"d8", "web", "u8", "i8", 8, 8⟩, ⟨"d9", "web", "u9", "i9", 9, 9⟩],
      "online", 0⟩)
    (by intro u hu; cases hu; decide)).1

/-- C7: the relay signer round trip.  A signature produced by
`createEmailHMAC` verifies while the timestamp is within the 5-minute
freshness window; it is rejected once `now - ts` exceeds the window;
and a different payload fails verification against the original
signature — the last part under the cryptographic hypotheses that the
HMAC outputs are hex digests and that the two distinct messages do not
collide. -/
theorem claim_C7_relay_roundtrip (hmac : String → String) (now : Int) (p p2 : String)
    (ts : Int) :
    ((now - ts).natAbs ≤ 5 * 60 * 1000 →
      relayVerify hmac now ⟨p, ts⟩ (createEmailHMAC hmac ⟨p, ts⟩) = true) ∧
    (now - ts > 5 * 60 * 1000 →
      relayVerify hmac now ⟨p, ts⟩ (createEmailHMAC hmac ⟨p, ts⟩) = false) ∧
    (p2 ≠ p → (now - ts).natAbs ≤ 5 * 60 * 1000 →
      hexDigest (hmac (serializeMessage ⟨p, ts⟩)) = true →
      hexDigest (hmac (serializeMessage ⟨p2, ts⟩)) = true →
      hmac (serializeMessage ⟨p2, ts⟩) ≠ hmac (serializeMessage ⟨p, ts⟩) →
      relayVerify hmac now ⟨p2, ts⟩ (createEmailHMAC hmac ⟨p, ts⟩) = false) := by
  refine ⟨?_, ?_, ?_⟩
  · intro hfresh
    have hn : ¬ (now - ts).natAbs > 5 * 60 * 1000 := by omega
    simp [relayVerify, hn, verifyHMAC, verifyHMACCore, createEmailHMAC, timingSafeEqual]
  · intro hlate
    have hn : (now - ts).natAbs > 5 * 60 * 1000 := by omega
    simp [relayVerify, hn]
  · intro hne hfresh hx1 hx2 hmne
    have hn : ¬ (now - ts).natAbs > 5 * 60 * 1000 := by omega
    have hlen : (hmac (serializeMessage ⟨p2, ts⟩)).length =
        (hmac (serializeMessage ⟨p, ts⟩)).length := by
      simp only [hexDigest, Bool.and_eq_true, beq_iff_eq] at hx1 hx2
      rw [hx2.1, hx1.1]
    simp [relayVerify, hn, verifyHMAC, verifyHMACCore, createEmailHMAC, hlen,
      timingSafeEqual_hexDigest _ _ hx2 hx1, hmne]

/-- C7 witness: a fresh signature verifies, a stale one does not, and a
mutated payload does not. -/
theorem claim_C7_relay_roundtrip_witness :
    relayVerify hmacWitness 5 ⟨"a", 5⟩ (createEmailHMAC hmacWitness ⟨"a", 5⟩) = true ∧
    relayVerify hmacWitness 600000 ⟨"a", 5⟩ (createEmailHMAC hmacWitness ⟨"a", 5⟩) = false ∧
    relayVerify hmacWitness 5 ⟨"b", 5⟩ (createEmailHMAC hmacWitness ⟨"a", 5⟩) = false := by
  refine ⟨(claim_C7_relay_roundtrip hmacWitness 5 "a" "b" 5).1 (by decide),
    (claim_C7_relay_roundtrip hmacWitness 600000 "a" "b" 5).2.1 (by decide),
    (claim_C7_relay_roundtrip hmacWitness 5 "a" "b" 5).2.2 (by decide) (by decide)
      (by decide) (by decide) (by decide)⟩

/-- C8: when the dual-key rate limit allows and the email dispatch step
fails, the caller is told the operation failed while the committed
record is left in place unchanged — and the stored code remains
consumable until its expiry: a later consume of the same code at any
time up to the expiry yields Valid. -/
theorem claim_C8_dispatch_failure_keeps_record (sha256 : String → String) (salt : String)
    (now : Int) (code email clientIP : String) (rl rl1 rl2 : RLStore) (vs : VStore)
    (h1 : isRateLimited now ("email:" ++ email) rl = (false, rl1))
    (h2 : isRateLimited now ("ip:" ++ clientIP) rl1 = (false, rl2)) :
    (sendVerificationCode sha256 salt now code email clientIP false rl vs).1 = false ∧
    findA (sendVerificationCode sha256 salt now code email clientIP false rl vs).2.2 email =
      some ⟨hashCode sha256 salt code email, now + 10 * 60 * 1000, 0, clientIP⟩ ∧
    (∀ now2, now2 ≤ now + 10 * 60 * 1000 →
      Option.map Prod.fst
          (verifyCodeR sha256 salt now2
            (sendVerificationCode sha256 salt now code email clientIP false rl vs).2.2
            email code) =
        some ConsumeResult.Valid) := by
  have hmain : sendVerificationCode sha256 salt now code email clientIP false rl vs =
      (false, rl2, setA vs email
        ⟨hashCode sha256 salt code email, now + 10 * 60 * 1000, 0, clientIP⟩) := by
    unfold sendVerificationCode
    simp [h1, h2]
  refine ⟨by rw [hmain], by rw [hmain]; exact findA_setA_same vs email _, ?_⟩
  intro now2 hle
  rw [hmain]
  have hfind := findA_setA_same vs email
    (⟨hashCode sha256 salt code email, now + 10 * 60 * 1000, 0, clientIP⟩ : VerificationRecord)
  unfold verifyCodeR verifyCodeCore
  rw [hfind]
  have hexp : ¬ ((now + 600000 : Int) < now2) := by omega
  simp [hexp, timingSafeEqual]

/-- C8 witness: a concrete failed dispatch leaves the committed record
in the store and reports failure. -/
theorem claim_C8_dispatch_failure_keeps_record_witness :
    (sendVerificationCode (fun s => s) "sa" 0 "123456" "a@x" "9.9.9.9" false [] []).1 =
      false ∧
    findA (sendVerificationCode (fun s => s) "sa" 0 "123456" "a@x" "9.9.9.9" false
        [] []).2.2 "a@x" =
      some ⟨"123456:a@x:sa", 600000, 0, "9.9.9.9"⟩ := by
  have h := claim_C8_dispatch_failure_keeps_record (fun s => s) "sa" 0 "123456" "a@x"
    "9.9.9.9" [] [("email:a@x", ⟨1, 60000⟩)]
    [("email:a@x", ⟨1, 60000⟩), ("ip:9.9.9.9", ⟨1, 60000⟩)] [] (by decide) (by decide)
  exact ⟨h.1, h.2.1⟩

/-- C9: digest verification is total on the received digest.  When the
received digest's length differs from the expected digest's length, the
guard returns false before the constant-time comparison primitive is
consulted: the conclusion holds for every primitive `tse`, including one
modelling a thrown exception, and the result is `some false` — a
returned value, not an exception.  The second conjunct states the same
for the digest-length guard inside the transactional `verifyCode`,
where a length-mismatched candidate is counted as a failed attempt. -/
theorem claim_C9_length_guard (tse : List Nat → List Nat → Option Bool)
    (hmac : String → String) (m : RelayMessage) (receivedHmac : String)
    (hlen : (hmac (serializeMessage m)).length ≠ receivedHmac.length) :
    verifyHMACCore tse hmac m receivedHmac = some false ∧
    (∀ (sha256 : String → String) (salt : String) (now : Int) (vs : VStore)
        (email code : String) (r : VerificationRecord),
      findA vs email = some r → ¬ r.expiresAt < now → ¬ r.attempts ≥ 5 →
      (hashCode sha256 salt code email).length ≠ r.hashedCode.length →
      verifyCodeCore tse sha256 salt now vs email code =
        some (.Invalid, setA vs email { r with attempts := r.attempts + 1 })) := by
  constructor
  · unfold verifyHMACCore
    simp [hlen]
  · intro sha256 salt now vs email code r hf hexp hatt hl
    unfold verifyCodeCore
    rw [hf]
    simp [hexp, hatt, hl]

/-- C9 witness: with an always-throwing comparison primitive and a
received digest of the wrong length, verification still returns
`some false`. -/
theorem claim_C9_length_guard_witness :
    verifyHMACCore (fun _ _ => none) (fun _ => "abcd") ⟨"x", 0⟩ "z" = some false := by
  exact (claim_C9_length_guard (fun _ _ => none) (fun _ => "abcd") ⟨"x", 0⟩ "z"
    (by decide)).1

end Vibez
